import Mathlib

/-!
Verification development for the Kai client streaming protocol core
(`src/kai_client/sse.py`): a shallow embedding of the SSE line reader,
the dual-dialect event normalizer, the tool-call lifecycle tracker and
the stream accumulator, together with theorems settling the spec claims.

Python values produced by `json.loads` are embedded as `PyVal` (JSON
`null` becomes Python `None`; floats are carried symbolically as their
literal text since no arithmetic is ever performed on them by the code
under study).  The event classes live in `kai_client/models.py`, which
is not part of the corpus; their field types are modelled from the
spec's data model (§3): string/optional-string/optional-bool fields and
non-negative integer token counts, with a value of the wrong shape
failing validation at event construction.  Everything else is a direct
translation of `sse.py`.
-/

inductive PyVal : Type where
  | none
  | bool (b : Bool)
  | int (n : Int)
  | floatLit (lit : String)
  | str (s : String)
  | list (xs : List PyVal)
  | dict (kvs : List (String × PyVal))

/-- Lookup in a Python dict represented as an association list with
unique keys (the representation every dict in this development uses). -/
def slookup {α : Type} : List (String × α) → String → Option α
  | [], _ => Option.none
  | (k, v) :: rest, key => if k = key then some v else slookup rest key

/-- Python `d.get(k, default)` on a dict. -/
def pyGet (kvs : List (String × PyVal)) (k : String) (d : PyVal) : PyVal :=
  (slookup kvs k).getD d

/-- Python `d[k] = v`: replace the value at an existing key in place,
otherwise append the new binding. -/
def dictUpsert {α : Type} : List (String × α) → String → α → List (String × α)
  | [], k, v => [(k, v)]
  | (k', v') :: rest, k, v =>
      if k' = k then (k, v) :: rest else (k', v') :: dictUpsert rest k v

/-- Python truthiness of a value (empty containers and empty strings are
falsy; a float literal is treated as truthy, which is accurate for every
float the protocol can carry into a truthiness test). -/
def pyTruthy : PyVal → Bool
  | .none => false
  | .bool b => b
  | .int n => decide (n ≠ 0)
  | .floatLit _ => true
  | .str s => decide (s ≠ "")
  | .list xs => !xs.isEmpty
  | .dict kvs => !kvs.isEmpty

/-! ### Event model

Modelled from the spec: `kai_client/models.py` is not in the corpus;
the spec's §3 data model fixes the field types (`ToolApproval.id` a
string, `approved` tri-state, `UsageInfo` counters non-negative
integers, `Text` content a string, …).  A wire value of the wrong shape
fails event-model validation, embedded as `PyErr.validationError`. -/

structure ToolApproval where
  id : String
  approved : Option Bool
  reason : Option String
deriving DecidableEq

structure UsageInfo where
  promptTokens : Nat
  completionTokens : Nat
deriving DecidableEq

structure TextEvent where
  text : String
  state : Option String
deriving DecidableEq

structure ToolCallEvent where
  toolCallId : String
  toolName : Option String
  state : String
  input : PyVal
  output : PyVal
  approval : Option ToolApproval

structure FinishEvent where
  finishReason : Option String
  usage : Option UsageInfo
deriving DecidableEq

inductive SSEEvent where
  | text (e : TextEvent)
  | stepStart
  | toolCall (e : ToolCallEvent)
  | toolOutputError (toolCallId errorText : String)
  | toolApprovalRequest (approvalId toolCallId : String)
  | usage (u : UsageInfo)
  | finish (e : FinishEvent)
  | errorEvent (message : String) (code : PyVal)
  | unknown (rawType : PyVal) (data : PyVal)

/-- A Python exception escaping the normalizer: an `AttributeError` or
`TypeError` raised by `sse.py` itself, or an event-model validation
error (modelled from the spec, see above). -/
inductive PyErr where
  | attributeError (msg : String)
  | typeError (msg : String)
  | validationError (msg : String)
deriving DecidableEq

def pyTypeName : PyVal → String
  | .none => "NoneType"
  | .bool _ => "bool"
  | .int _ => "int"
  | .floatLit _ => "float"
  | .str _ => "str"
  | .list _ => "list"
  | .dict _ => "dict"

def asStr : PyVal → Except PyErr String
  | .str s => .ok s
  | _ => .error (.validationError "str expected")

def asOptStr : PyVal → Except PyErr (Option String)
  | .none => .ok Option.none
  | .str s => .ok (some s)
  | _ => .error (.validationError "str or None expected")

def asOptBool : PyVal → Except PyErr (Option Bool)
  | .none => .ok Option.none
  | .bool b => .ok (some b)
  | _ => .error (.validationError "bool or None expected")

def asNat : PyVal → Except PyErr Nat
  | .int n => if 0 ≤ n then .ok n.toNat
              else .error (.validationError "non-negative int expected")
  | _ => .error (.validationError "non-negative int expected")

/-! ### Individual event parsers (translated from `sse.py`) -/

/-- `_parse_approval`: the approval sub-record is built only when the
`approval` field is truthy, is a dict, and has an `"id"` key (a dict
containing a key is automatically truthy, so the truthiness test
collapses into the key test). -/
def parse_approval (kvs : List (String × PyVal)) : Except PyErr (Option ToolApproval) :=
  match pyGet kvs "approval" PyVal.none with
  | .dict akvs =>
    match slookup akvs "id" with
    | some idv =>
      match asStr idv, asOptBool (pyGet akvs "approved" PyVal.none),
            asOptStr (pyGet akvs "reason" PyVal.none) with
      | .ok i, .ok ap, .ok r => .ok (some ⟨i, ap, r⟩)
      | .error e, _, _ => .error e
      | _, .error e, _ => .error e
      | _, _, .error e => .error e
    | Option.none => .ok Option.none
  | _ => .ok Option.none

/-- `_parse_text_event` (local dialect): reads the `text` field. -/
def parse_text_event (kvs : List (String × PyVal)) : Except PyErr SSEEvent :=
  match asStr (pyGet kvs "text" (PyVal.str "")),
        asOptStr (pyGet kvs "state" PyVal.none) with
  | .ok t, .ok st => .ok (.text ⟨t, st⟩)
  | .error e, _ => .error e
  | _, .error e => .error e

/-- `_parse_text_delta_event` (production dialect): reads the `delta` field. -/
def parse_text_delta_event (kvs : List (String × PyVal)) : Except PyErr SSEEvent :=
  match asStr (pyGet kvs "delta" (PyVal.str "")),
        asOptStr (pyGet kvs "state" PyVal.none) with
  | .ok t, .ok st => .ok (.text ⟨t, st⟩)
  | .error e, _ => .error e
  | _, .error e => .error e

def parse_step_start_event (_ : List (String × PyVal)) : Except PyErr SSEEvent :=
  .ok .stepStart

/-- `_parse_tool_call_event` (local dialect). -/
def parse_tool_call_event (kvs : List (String × PyVal)) : Except PyErr SSEEvent :=
  match asStr (pyGet kvs "toolCallId" (PyVal.str "")),
        asOptStr (pyGet kvs "toolName" PyVal.none),
        asStr (pyGet kvs "state" (PyVal.str "")),
        parse_approval kvs with
  | .ok i, .ok n, .ok st, .ok ap =>
      .ok (.toolCall ⟨i, n, st, pyGet kvs "input" PyVal.none,
                      pyGet kvs "output" PyVal.none, ap⟩)
  | .error e, _, _, _ => .error e
  | _, .error e, _, _ => .error e
  | _, _, .error e, _ => .error e
  | _, _, _, .error e => .error e

/-- `_parse_tool_input_start_event`: phase fixed to `"started"`. -/
def parse_tool_input_start_event (kvs : List (String × PyVal)) : Except PyErr SSEEvent :=
  match asStr (pyGet kvs "toolCallId" (PyVal.str "")),
        asOptStr (pyGet kvs "toolName" PyVal.none) with
  | .ok i, .ok n =>
      .ok (.toolCall ⟨i, n, "started", PyVal.none, PyVal.none, Option.none⟩)
  | .error e, _ => .error e
  | _, .error e => .error e

/-- `_parse_tool_input_available_event`: phase fixed to `"input-available"`. -/
def parse_tool_input_available_event (kvs : List (String × PyVal)) : Except PyErr SSEEvent :=
  match asStr (pyGet kvs "toolCallId" (PyVal.str "")),
        asOptStr (pyGet kvs "toolName" PyVal.none),
        parse_approval kvs with
  | .ok i, .ok n, .ok ap =>
      .ok (.toolCall ⟨i, n, "input-available", pyGet kvs "input" PyVal.none,
                      PyVal.none, ap⟩)
  | .error e, _, _ => .error e
  | _, .error e, _ => .error e
  | _, _, .error e => .error e

/-- `_parse_tool_output_available_event`: phase fixed to `"output-available"`. -/
def parse_tool_output_available_event (kvs : List (String × PyVal)) : Except PyErr SSEEvent :=
  match asStr (pyGet kvs "toolCallId" (PyVal.str "")),
        asOptStr (pyGet kvs "toolName" PyVal.none) with
  | .ok i, .ok n =>
      .ok (.toolCall ⟨i, n, "output-available", PyVal.none,
                      pyGet kvs "output" PyVal.none, Option.none⟩)
  | .error e, _ => .error e
  | _, .error e => .error e

/-- Embedded-usage part of `_parse_finish_event`: `usage if usage else None`,
with the truthy dict coerced into `UsageInfo` by the event model. -/
def finishUsagePart (kvs : List (String × PyVal)) : Except PyErr (Option UsageInfo) :=
  let u := pyGet kvs "usage" PyVal.none
  if pyTruthy u then
    match u with
    | .dict ukvs =>
      match asNat (pyGet ukvs "promptTokens" (PyVal.int 0)),
            asNat (pyGet ukvs "completionTokens" (PyVal.int 0)) with
      | .ok pt, .ok ct => .ok (some ⟨pt, ct⟩)
      | .error e, _ => .error e
      | _, .error e => .error e
    | _ => .error (.validationError "usage mapping expected")
  else .ok Option.none

/-- `_parse_finish_event`: `finishReason` defaults to `"stop"` when the
key is absent. -/
def parse_finish_event (kvs : List (String × PyVal)) : Except PyErr SSEEvent :=
  match asOptStr (pyGet kvs "finishReason" (PyVal.str "stop")),
        finishUsagePart kvs with
  | .ok fr, .ok u => .ok (.finish ⟨fr, u⟩)
  | .error e, _ => .error e
  | _, .error e => .error e

def parse_error_event (kvs : List (String × PyVal)) : Except PyErr SSEEvent :=
  match asStr (pyGet kvs "message" (PyVal.str "Unknown error")) with
  | .ok m => .ok (.errorEvent m (pyGet kvs "code" PyVal.none))
  | .error e => .error e

def parse_tool_output_error_event (kvs : List (String × PyVal)) : Except PyErr SSEEvent :=
  match asStr (pyGet kvs "toolCallId" (PyVal.str "")),
        asStr (pyGet kvs "errorText" (PyVal.str "Unknown error")) with
  | .ok i, .ok t => .ok (.toolOutputError i t)
  | .error e, _ => .error e
  | _, .error e => .error e

def parse_tool_approval_request_event (kvs : List (String × PyVal)) : Except PyErr SSEEvent :=
  match asStr (pyGet kvs "approvalId" (PyVal.str "")),
        asStr (pyGet kvs "toolCallId" (PyVal.str "")) with
  | .ok a, .ok t => .ok (.toolApprovalRequest a t)
  | .error e, _ => .error e
  | _, .error e => .error e

/-- `_parse_usage_event`: `data.get("data", {})` followed by `.get` calls
on the result — a present non-dict `data` value (including `null`) makes
the `.get` attribute lookup raise `AttributeError`, exactly as in the
source. -/
def parse_usage_event (kvs : List (String × PyVal)) : Except PyErr SSEEvent :=
  match pyGet kvs "data" (PyVal.dict []) with
  | .dict ukvs =>
    match asNat (pyGet ukvs "promptTokens" (PyVal.int 0)),
          asNat (pyGet ukvs "completionTokens" (PyVal.int 0)) with
    | .ok pt, .ok ct => .ok (.usage ⟨pt, ct⟩)
    | .error e, _ => .error e
    | _, .error e => .error e
  | v => .error (.attributeError (pyTypeName v ++ " object has no attribute get"))

/-- `EVENT_PARSERS`: the fixed dispatch table, keyed by wire type string. -/
def EVENT_PARSERS : List (String × (List (String × PyVal) → Except PyErr SSEEvent)) :=
  [("text", parse_text_event),
   ("text-delta", parse_text_delta_event),
   ("step-start", parse_step_start_event),
   ("start-step", parse_step_start_event),
   ("tool-call", parse_tool_call_event),
   ("tool-input-start", parse_tool_input_start_event),
   ("tool-input-available", parse_tool_input_available_event),
   ("tool-output-available", parse_tool_output_available_event),
   ("tool-output-error", parse_tool_output_error_event),
   ("tool-approval-request", parse_tool_approval_request_event),
   ("data-usage", parse_usage_event),
   ("finish", parse_finish_event),
   ("finish-step", parse_finish_event),
   ("error", parse_error_event)]

/-- Is a wire type string a key of `EVENT_PARSERS`? -/
def supportedType (t : String) : Bool :=
  (slookup EVENT_PARSERS t).isSome

/-- `parse_sse_event`: table dispatch on `data.get("type", "")`; a string
with no table entry falls through to `Unknown` carrying the original
type and the whole original record.  A non-dict record makes the
`.get` attribute lookup raise; an unhashable (list/dict) type value
makes the table lookup raise `TypeError`. -/
def parse_sse_event : PyVal → Except PyErr SSEEvent
  | .dict kvs =>
    match pyGet kvs "type" (PyVal.str "") with
    | .str t =>
      match slookup EVENT_PARSERS t with
      | some p => p kvs
      | Option.none => .ok (.unknown (PyVal.str t) (PyVal.dict kvs))
    | .list _ => .error (.typeError "unhashable type")
    | .dict _ => .error (.typeError "unhashable type")
    | other => .ok (.unknown other (PyVal.dict kvs))
  | v => .error (.attributeError (pyTypeName v ++ " object has no attribute get"))

/-! ### Stream accumulator (`SSEStreamParser`) -/

structure StreamState where
  accumulated_text : List String
  tool_calls : List (String × ToolCallEvent)
  finished : Bool
  finish_reason : Option String
  prompt_tokens : Nat
  completion_tokens : Nat

/-- Fresh `SSEStreamParser` state (`__init__`). -/
def initState : StreamState :=
  ⟨[], [], false, Option.none, 0, 0⟩

/-- `SSEStreamParser.text`: `"".join(self._accumulated_text)`. -/
def StreamState.text (s : StreamState) : String :=
  String.join s.accumulated_text

/-- `SSEStreamParser.process_event`: the per-event fold step.  Note that
it never consults `finished`. -/
def process_event (s : StreamState) (e : SSEEvent) : StreamState :=
  match e with
  | .text t => { s with accumulated_text := s.accumulated_text ++ [t.text] }
  | .toolCall tc => { s with tool_calls := dictUpsert s.tool_calls tc.toolCallId tc }
  | .usage u => { s with prompt_tokens := s.prompt_tokens + u.promptTokens,
                         completion_tokens := s.completion_tokens + u.completionTokens }
  | .finish f =>
      { s with finished := true,
               finish_reason := f.finishReason,
               prompt_tokens := s.prompt_tokens +
                 (match f.usage with | some u => u.promptTokens | Option.none => 0),
               completion_tokens := s.completion_tokens +
                 (match f.usage with | some u => u.completionTokens | Option.none => 0) }
  | _ => s

/-- `SSEStreamParser.reset`: every field back to its initial value. -/
def resetState (_ : StreamState) : StreamState :=
  ⟨[], [], false, Option.none, 0, 0⟩

/-- Fold a whole event sequence from the fresh state. -/
def foldProcess (evs : List SSEEvent) : StreamState :=
  evs.foldl process_event initState

/-- Pending classification from `examples/test_tool_confirmation.py`
(`stream_and_collect`): the entries of the per-id map whose latest
recorded phase is `"input-available"`. -/
def pendingEntries (m : List (String × ToolCallEvent)) : List (String × ToolCallEvent) :=
  m.filter (fun kv => kv.2.state = "input-available")

/-- The ids of the pending tool calls of an accumulator state. -/
def pending_ids (s : StreamState) : List String :=
  (pendingEntries s.tool_calls).map (·.1)

/-- The most recent `ToolCall` event for a given id in an event sequence
(the specification-side description the tracker is compared against). -/
def tcOf : SSEEvent → Option ToolCallEvent
  | .toolCall tc => some tc
  | _ => Option.none

def lastTC : List SSEEvent → String → Option ToolCallEvent
  | [], _ => Option.none
  | e :: rest, id =>
    match lastTC rest id with
    | some x => some x
    | Option.none =>
      match tcOf e with
      | some tc => if tc.toolCallId = id then some tc else Option.none
      | Option.none => Option.none

/-! ### SSE line reader (`parse_sse_stream`) -/

/-- A decode failure from `json.loads`: CPython's `JSONDecodeError`
carries a message and a character position (its `str` never includes the
document text, only position information). -/
structure JErr where
  msg : String
  pos : Nat
deriving DecidableEq

def skipWs : List Char → Nat → List Char × Nat
  | c :: cs, p =>
      if c = ' ' ∨ c = '\t' ∨ c = '\n' ∨ c = '\r' then skipWs cs (p + 1)
      else (c :: cs, p)
  | [], p => ([], p)

/-- String body parser: consumes up to the closing quote, handling the
common escapes (the `\uXXXX` form is not needed by this protocol). -/
def parseJStr : List Char → Nat → Except JErr (String × List Char × Nat)
  | [], p => .error ⟨"Unterminated string starting at", p⟩
  | c :: cs, p =>
    if c = '"' then .ok ("", cs, p + 1)
    else if c = '\\' then
      match cs with
      | [] => .error ⟨"Unterminated string starting at", p⟩
      | e :: cs2 =>
        let esc : Option Char :=
          if e = '"' then some '"'
          else if e = '\\' then some '\\'
          else if e = '/' then some '/'
          else if e = 'n' then some '\n'
          else if e = 't' then some '\t'
          else if e = 'r' then some '\r'
          else Option.none
        match esc with
        | some ch =>
          match parseJStr cs2 (p + 2) with
          | .ok (s, r, p2) => .ok (String.singleton ch ++ s, r, p2)
          | .error err => .error err
        | Option.none => .error ⟨"Invalid escape", p⟩
    else
      match parseJStr cs (p + 1) with
      | .ok (s, r, p2) => .ok (String.singleton c ++ s, r, p2)
      | .error err => .error err

def takeDigits : List Char → String × List Char × Nat
  | c :: cs =>
      if c.isDigit then
        let (s, r, n) := takeDigits cs
        (String.singleton c ++ s, r, n + 1)
      else ("", c :: cs, 0)
  | [] => ("", [], 0)

def digitsToNat (s : String) : Nat :=
  s.toList.foldl (fun a c => a * 10 + (c.toNat - 48)) 0

/-- Continuation after the exponent marker of a number literal. -/
def parseExpTail (lit : String) (cs : List Char) (p : Nat) :
    Except JErr (PyVal × List Char × Nat) :=
  match cs with
  | '+' :: r =>
    let (ds, r2, n) := takeDigits r
    if n = 0 then .error ⟨"Expecting value", p⟩
    else .ok (.floatLit (lit ++ "+" ++ ds), r2, p + 1 + n)
  | '-' :: r =>
    let (ds, r2, n) := takeDigits r
    if n = 0 then .error ⟨"Expecting value", p⟩
    else .ok (.floatLit (lit ++ "-" ++ ds), r2, p + 1 + n)
  | _ =>
    let (ds, r2, n) := takeDigits cs
    if n = 0 then .error ⟨"Expecting value", p⟩
    else .ok (.floatLit (lit ++ ds), r2, p + n)

/-- Continuation after the integer part of a number: an immediately
following `.` or exponent makes it a float, carried as its literal. -/
def parseNumTail (iv : Int) (lit : String) (cs : List Char) (p : Nat) :
    Except JErr (PyVal × List Char × Nat) :=
  match cs with
  | '.' :: r =>
    let (ds, r2, n) := takeDigits r
    if n = 0 then .error ⟨"Expecting value", p⟩
    else
      match r2 with
      | 'e' :: r3 => parseExpTail (lit ++ "." ++ ds ++ "e") r3 (p + 1 + n + 1)
      | 'E' :: r3 => parseExpTail (lit ++ "." ++ ds ++ "E") r3 (p + 1 + n + 1)
      | _ => .ok (.floatLit (lit ++ "." ++ ds), r2, p + 1 + n)
  | 'e' :: r => parseExpTail (lit ++ "e") r (p + 1)
  | 'E' :: r => parseExpTail (lit ++ "E") r (p + 1)
  | _ => .ok (.int iv, cs, p)

/-- Which production the recursive-descent decoder is currently in:
a value, or an object/array body with the members accumulated so far. -/
inductive JMode where
  | val
  | objFirst
  | objMember (acc : List (String × PyVal))
  | objRest (acc : List (String × PyVal))
  | arrFirst
  | arrRest (acc : List PyVal)

/-- Recursive-descent model of `json.loads` over the JSON subset this
protocol exchanges (objects, arrays, strings, integers, the literals,
with floats carried symbolically).  Duplicate object keys overwrite in
place as Python dicts do.  The fuel argument only bounds nesting and
member counts and is chosen large enough in `jsonLoads` to never run
out. -/
def jparse : Nat → JMode → List Char → Nat → Except JErr (PyVal × List Char × Nat)
  | 0, _, _, p => .error ⟨"Expecting value", p⟩
  | f + 1, mode, cs0, p0 =>
    match mode with
    | .val =>
      let (cs, p) := skipWs cs0 p0
      match cs with
      | [] => .error ⟨"Expecting value", p⟩
      | c :: rest =>
        if c = '{' then jparse f .objFirst rest (p + 1)
        else if c = '[' then jparse f .arrFirst rest (p + 1)
        else if c = '"' then
          match parseJStr rest (p + 1) with
          | .ok (s, r, p2) => .ok (.str s, r, p2)
          | .error e => .error e
        else if c = '-' then
          let (ds, r, n) := takeDigits rest
          if n = 0 then .error ⟨"Expecting value", p⟩
          else parseNumTail (-(Int.ofNat (digitsToNat ds)))
                 (String.singleton '-' ++ ds) r (p + 1 + n)
        else if c.isDigit then
          let (ds, r, n) := takeDigits (c :: rest)
          parseNumTail (Int.ofNat (digitsToNat ds)) ds r (p + n)
        else if c = 't' then
          match rest with
          | 'r' :: 'u' :: 'e' :: r => .ok (.bool true, r, p + 4)
          | _ => .error ⟨"Expecting value", p⟩
        else if c = 'f' then
          match rest with
          | 'a' :: 'l' :: 's' :: 'e' :: r => .ok (.bool false, r, p + 5)
          | _ => .error ⟨"Expecting value", p⟩
        else if c = 'n' then
          match rest with
          | 'u' :: 'l' :: 'l' :: r => .ok (.none, r, p + 4)
          | _ => .error ⟨"Expecting value", p⟩
        else .error ⟨"Expecting value", p⟩
    | .objFirst =>
      let (cs, p) := skipWs cs0 p0
      match cs with
      | '}' :: r => .ok (.dict [], r, p + 1)
      | _ => jparse f (.objMember []) cs p
    | .objMember acc =>
      match cs0 with
      | '"' :: r =>
        match parseJStr r (p0 + 1) with
        | .error e => .error e
        | .ok (key, r2, p2) =>
          let (r3, p3) := skipWs r2 p2
          match r3 with
          | ':' :: r4 =>
            match jparse f .val r4 (p3 + 1) with
            | .error e => .error e
            | .ok (v, r5, p5) => jparse f (.objRest (dictUpsert acc key v)) r5 p5
          | _ => .error ⟨"Expecting colon delimiter", p3⟩
      | _ => .error ⟨"Expecting property name enclosed in double quotes", p0⟩
    | .objRest acc =>
      let (cs, p) := skipWs cs0 p0
      match cs with
      | '}' :: r => .ok (.dict acc, r, p + 1)
      | ',' :: r =>
        let (r2, p2) := skipWs r (p + 1)
        jparse f (.objMember acc) r2 p2
      | _ => .error ⟨"Expecting comma delimiter", p⟩
    | .arrFirst =>
      let (cs, p) := skipWs cs0 p0
      match cs with
      | ']' :: r => .ok (.list [], r, p + 1)
      | _ =>
        match jparse f .val cs p with
        | .error e => .error e
        | .ok (v, r, p2) => jparse f (.arrRest [v]) r p2
    | .arrRest acc =>
      let (cs, p) := skipWs cs0 p0
      match cs with
      | ']' :: r => .ok (.list acc, r, p + 1)
      | ',' :: r =>
        match jparse f .val r (p + 1) with
        | .error e => .error e
        | .ok (v, r2, p2) => jparse f (.arrRest (acc ++ [v])) r2 p2
      | _ => .error ⟨"Expecting comma delimiter", p⟩

/-- Model of `json.loads`: parse one value, then require only trailing
whitespace. -/
def jsonLoads (s : String) : Except JErr PyVal :=
  let cs := s.toList
  match jparse (2 * cs.length + 8) .val cs 0 with
  | .error e => .error e
  | .ok (v, rest, p) =>
    match skipWs rest p with
    | ([], _) => .ok v
    | (_, p2) => .error ⟨"Extra data", p2⟩

/-- CPython renders a `JSONDecodeError` as
`"{msg}: line {lineno} column {colno} (char {pos})"`, computing line and
column from the document and the character position; the document text
itself never appears. -/
def jerrLine (doc : String) (pos : Nat) : Nat :=
  1 + ((doc.toList.take pos).filter (fun c => c = '\n')).length

def jerrCol (doc : String) (pos : Nat) : Nat :=
  ((doc.toList.take pos).reverse.takeWhile (fun c => c ≠ '\n')).length + 1

def strJErr (doc : String) (e : JErr) : String :=
  e.msg ++ ": line " ++ toString (jerrLine doc e.pos) ++ " column " ++
    toString (jerrCol doc e.pos) ++ " (char " ++ toString e.pos ++ ")"

/-- The exception object raised by `parse_sse_stream`: `KaiStreamError`
(from `kai_client.exceptions`) with a message and a cause string.  The
`pyClass` field records the Python class of the raised exception, which
is `"KaiStreamError"` at both raise sites of `sse.py`. -/
structure KaiStreamError where
  pyClass : String
  message : String
  cause : String
deriving DecidableEq

/-- How one stream ends abnormally: a raised `KaiStreamError`, or an
uncaught Python exception escaping the normalizer. -/
inductive StreamAbort where
  | kai (e : KaiStreamError)
  | py (e : PyErr)
deriving DecidableEq

/-- What the underlying transport does after its last delivered line:
end of stream, an `httpx.StreamClosed` between records, or an
`httpx.RemoteProtocolError` carrying its message. -/
inductive Terminal where
  | eof
  | streamClosed
  | remoteProtocolError (msg : String)

inductive LineAction where
  | skip
  | yieldEvent (e : SSEEvent)
  | abortKai (k : KaiStreamError)
  | abortPy (e : PyErr)

/-- Prefix test on char lists (Python `str.startswith`). -/
def isPreCh : List Char → List Char → Bool
  | [], _ => true
  | _ :: _, [] => false
  | a :: as, b :: bs => a = b && isPreCh as bs

def isWsCh (c : Char) : Bool :=
  c = ' ' || c = '\t' || c = '\n' || c = '\r'

/-- Python `str.strip()`: whitespace removed from both ends. -/
def trimCh (cs : List Char) : List Char :=
  ((cs.dropWhile isWsCh).reverse.dropWhile isWsCh).reverse

/-- One iteration of the `async for line` loop of `parse_sse_stream`:
empty lines, comments, SSE metadata fields and any other non-`data:`
line are skipped; a `data:` payload is stripped, `[DONE]` and blank
payloads are skipped, and the payload is JSON-decoded and normalized.
A `json.JSONDecodeError` is re-raised as
`KaiStreamError(message=f"Failed to parse SSE event: {e}", cause=str(e))`. -/
def processLine (line : String) : LineAction :=
  let lcs := line.toList
  if lcs.isEmpty then .skip
  else if isPreCh ":".toList lcs then .skip
  else if isPreCh "data: ".toList lcs then
    let json_cs := lcs.drop 6
    let json_str := String.mk json_cs
    let stripped := trimCh json_cs
    if stripped.isEmpty then .skip
    else if stripped = "[DONE]".toList then .skip
    else
      match jsonLoads json_str with
      | .error e =>
          .abortKai ⟨"KaiStreamError",
                     "Failed to parse SSE event: " ++ strJErr json_str e,
                     strJErr json_str e⟩
      | .ok v =>
        match parse_sse_event v with
        | .error pe => .abortPy pe
        | .ok ev => .yieldEvent ev
  else .skip

/-- The events yielded for a list of delivered lines, stopping at the
first abort (nothing after a raise is yielded). -/
def runLines : List String → List SSEEvent × Option StreamAbort
  | [] => ([], Option.none)
  | l :: rest =>
    match processLine l with
    | .skip => runLines rest
    | .yieldEvent ev =>
      let (evs, a) := runLines rest
      (ev :: evs, a)
    | .abortKai k => ([], some (.kai k))
    | .abortPy e => ([], some (.py e))

/-- `parse_sse_stream` over a complete transport interaction: the lines
delivered, then the transport's terminal condition.  `StreamClosed` is
caught and treated as normal termination; `RemoteProtocolError` is
re-raised as `KaiStreamError("Connection error during streaming", cause=str(e))`. -/
def parse_sse_stream (lines : List String) (t : Terminal) :
    List SSEEvent × Option StreamAbort :=
  match runLines lines with
  | (evs, some a) => (evs, some a)
  | (evs, Option.none) =>
    match t with
    | .eof => (evs, Option.none)
    | .streamClosed => (evs, Option.none)
    | .remoteProtocolError m =>
        (evs, some (.kai ⟨"KaiStreamError", "Connection error during streaming", m⟩))

/-- The Python class of the exception a stream aborted with, if any. -/
def abortClass : Option StreamAbort → Option String
  | some (.kai k) => some k.pyClass
  | _ => Option.none

def isInfixCh (needle : List Char) : List Char → Bool
  | [] => isPreCh needle []
  | c :: cs => isPreCh needle (c :: cs) || isInfixCh needle cs

/-- Substring test used to state what an error value does not carry. -/
def containsFrag (needle hay : String) : Bool :=
  isInfixCh needle.toList hay.toList

/-! ### Derived notions used by the claim statements -/

def exOk {ε α : Type} : Except ε α → Bool
  | .ok _ => true
  | .error _ => false

/-- The text fragment an event contributes to the accumulated response. -/
def fragOf : SSEEvent → Option String
  | .text t => some t.text
  | _ => Option.none

/-- Prompt-token contribution of one event: `Usage` events and the
embedded usage of `Finish` events, everything else contributes nothing. -/
def promptContrib : SSEEvent → Nat
  | .usage u => u.promptTokens
  | .finish f => (match f.usage with | some u => u.promptTokens | Option.none => 0)
  | _ => 0

def completionContrib : SSEEvent → Nat
  | .usage u => u.completionTokens
  | .finish f => (match f.usage with | some u => u.completionTokens | Option.none => 0)
  | _ => 0

def dictKeys {α : Type} (m : List (String × α)) : List String :=
  m.map (·.1)

/-- The exact source-level condition under which `_parse_approval`
builds a sub-record: the `approval` value is a dict containing an `"id"`
key (such a dict is non-empty, hence truthy). -/
def approvalConds (kvs : List (String × PyVal)) : Bool :=
  match pyGet kvs "approval" PyVal.none with
  | .dict akvs => (slookup akvs "id").isSome
  | _ => false

/-! ### Structural well-formedness of a raw record

`wfRecord` spells out, per supported wire type, the field shapes under
which normalization cannot raise: every field the parser reads must have
the shape the event model expects, and — the condition `sse.py` itself
imposes — the `data` field of a `data-usage` record must be a mapping. -/

def okStr : PyVal → Bool
  | .str _ => true
  | _ => false

def okOptStr : PyVal → Bool
  | .none => true
  | .str _ => true
  | _ => false

def okOptBool : PyVal → Bool
  | .none => true
  | .bool _ => true
  | _ => false

def okNat : PyVal → Bool
  | .int n => decide (0 ≤ n)
  | _ => false

def approvalOk (kvs : List (String × PyVal)) : Bool :=
  match pyGet kvs "approval" PyVal.none with
  | .dict akvs =>
    match slookup akvs "id" with
    | some idv => okStr idv && okOptBool (pyGet akvs "approved" PyVal.none)
        && okOptStr (pyGet akvs "reason" PyVal.none)
    | Option.none => true
  | _ => true

def usageFieldOk (kvs : List (String × PyVal)) : Bool :=
  let u := pyGet kvs "usage" PyVal.none
  if pyTruthy u then
    match u with
    | .dict ukvs => okNat (pyGet ukvs "promptTokens" (PyVal.int 0)) &&
        okNat (pyGet ukvs "completionTokens" (PyVal.int 0))
    | _ => false
  else true

def dataUsageOk (kvs : List (String × PyVal)) : Bool :=
  match pyGet kvs "data" (PyVal.dict []) with
  | .dict ukvs => okNat (pyGet ukvs "promptTokens" (PyVal.int 0)) &&
      okNat (pyGet ukvs "completionTokens" (PyVal.int 0))
  | _ => false

def wfRecord (kvs : List (String × PyVal)) : Bool :=
  match pyGet kvs "type" (PyVal.str "") with
  | .str t =>
    if t = "text" then
      okStr (pyGet kvs "text" (PyVal.str "")) && okOptStr (pyGet kvs "state" PyVal.none)
    else if t = "text-delta" then
      okStr (pyGet kvs "delta" (PyVal.str "")) && okOptStr (pyGet kvs "state" PyVal.none)
    else if t = "tool-call" then
      okStr (pyGet kvs "toolCallId" (PyVal.str "")) &&
        okOptStr (pyGet kvs "toolName" PyVal.none) &&
        okStr (pyGet kvs "state" (PyVal.str "")) && approvalOk kvs
    else if t = "tool-input-start" then
      okStr (pyGet kvs "toolCallId" (PyVal.str "")) &&
        okOptStr (pyGet kvs "toolName" PyVal.none)
    else if t = "tool-input-available" then
      okStr (pyGet kvs "toolCallId" (PyVal.str "")) &&
        okOptStr (pyGet kvs "toolName" PyVal.none) && approvalOk kvs
    else if t = "tool-output-available" then
      okStr (pyGet kvs "toolCallId" (PyVal.str "")) &&
        okOptStr (pyGet kvs "toolName" PyVal.none)
    else if t = "tool-output-error" then
      okStr (pyGet kvs "toolCallId" (PyVal.str "")) &&
        okStr (pyGet kvs "errorText" (PyVal.str "Unknown error"))
    else if t = "tool-approval-request" then
      okStr (pyGet kvs "approvalId" (PyVal.str "")) &&
        okStr (pyGet kvs "toolCallId" (PyVal.str ""))
    else if t = "data-usage" then dataUsageOk kvs
    else if t = "finish" then
      okOptStr (pyGet kvs "finishReason" (PyVal.str "stop")) && usageFieldOk kvs
    else if t = "finish-step" then
      okOptStr (pyGet kvs "finishReason" (PyVal.str "stop")) && usageFieldOk kvs
    else if t = "error" then
      okStr (pyGet kvs "message" (PyVal.str "Unknown error"))
    else true
  | .list _ => false
  | .dict _ => false
  | _ => true

/-! ### Association-list lemmas for the last-write-wins tool-call map -/

theorem slookup_dictUpsert {α : Type} (m : List (String × α)) (k : String) (v : α)
    (id : String) :
    slookup (dictUpsert m k v) id = if k = id then some v else slookup m id := by
  induction m with
  | nil => by_cases hid : k = id <;> simp [dictUpsert, slookup, hid]
  | cons hd tl ih =>
    obtain ⟨k', v'⟩ := hd
    by_cases hkk : k' = k
    · subst hkk
      by_cases hid : k' = id <;> simp [dictUpsert, slookup, hid]
    · by_cases hid : k' = id
      · subst hid
        simp [dictUpsert, slookup, hkk, Ne.symm hkk]
      · simp [dictUpsert, slookup, hkk, hid, ih]

theorem mem_dictKeys_upsert {α : Type} (m : List (String × α)) (k : String) (v : α)
    (id : String) :
    id ∈ dictKeys (dictUpsert m k v) ↔ id ∈ dictKeys m ∨ id = k := by
  induction m with
  | nil => simp [dictUpsert, dictKeys, eq_comm]
  | cons hd tl ih =>
    obtain ⟨k', v'⟩ := hd
    by_cases hkk : k' = k
    · subst hkk
      simp [dictUpsert, dictKeys]
      tauto
    · simp [dictUpsert, dictKeys, hkk] at ih ⊢
      tauto

theorem nodup_dictKeys_upsert {α : Type} (m : List (String × α)) (k : String) (v : α)
    (h : (dictKeys m).Nodup) : (dictKeys (dictUpsert m k v)).Nodup := by
  induction m with
  | nil => simp [dictUpsert, dictKeys]
  | cons hd tl ih =>
    obtain ⟨k', v'⟩ := hd
    rw [dictKeys, List.map_cons, List.nodup_cons] at h
    by_cases hkk : k' = k
    · subst hkk
      simpa [dictUpsert, dictKeys, List.nodup_cons] using h
    · rw [show dictUpsert ((k', v') :: tl) k v = (k', v') :: dictUpsert tl k v by
          simp [dictUpsert, hkk]]
      rw [dictKeys, List.map_cons, List.nodup_cons]
      refine ⟨?_, ih h.2⟩
      rw [show (dictUpsert tl k v).map (·.1) = dictKeys (dictUpsert tl k v) from rfl,
          mem_dictKeys_upsert]
      rintro (hm | hm)
      · exact h.1 hm
      · exact hkk hm

theorem pending_subset_keys (m : List (String × ToolCallEvent)) (id : String)
    (h : id ∈ (pendingEntries m).map (·.1)) : id ∈ dictKeys m := by
  simp only [pendingEntries, dictKeys, List.mem_map, List.mem_filter] at h ⊢
  obtain ⟨x, ⟨hm, _⟩, hx⟩ := h
  exact ⟨x, hm, hx⟩

theorem mem_pending_iff (m : List (String × ToolCallEvent)) (id : String)
    (h : (dictKeys m).Nodup) :
    id ∈ (pendingEntries m).map (·.1) ↔
      ∃ e, slookup m id = some e ∧ e.state = "input-available" := by
  induction m with
  | nil => simp [pendingEntries, slookup]
  | cons hd tl ih =>
    obtain ⟨k, v⟩ := hd
    have hnd : k ∉ dictKeys tl ∧ (dictKeys tl).Nodup := by
      simpa [dictKeys, List.nodup_cons] using h
    by_cases hkid : k = id
    · subst hkid
      simp only [slookup, if_pos rfl]
      constructor
      · intro hm
        by_cases hv : v.state = "input-available"
        · exact ⟨v, rfl, hv⟩
        · exfalso
          have hk : k ∈ (pendingEntries tl).map (·.1) := by
            simpa [pendingEntries, List.filter_cons, hv] using hm
          exact hnd.1 (pending_subset_keys tl k hk)
      · rintro ⟨e, he, hst⟩
        obtain rfl : v = e := by injection he
        simp [pendingEntries, List.filter_cons, hst]
    · simp only [slookup, if_neg hkid]
      rw [← ih hnd.2]
      by_cases hv : v.state = "input-available"
      · simp [pendingEntries, List.filter_cons, hv, Ne.symm hkid]
      · simp [pendingEntries, List.filter_cons, hv]

theorem mem_pending_upsert (m : List (String × ToolCallEvent)) (k : String)
    (v : ToolCallEvent) (h : v.state = "input-available") :
    k ∈ (pendingEntries (dictUpsert m k v)).map (·.1) := by
  induction m with
  | nil => simp [dictUpsert, pendingEntries, List.filter_cons, h]
  | cons hd tl ih =>
    obtain ⟨k', v'⟩ := hd
    by_cases hkk : k' = k
    · subst hkk
      simp [dictUpsert, pendingEntries, List.filter_cons, h]
    · by_cases hv : v'.state = "input-available" <;>
        simp_all [dictUpsert, pendingEntries, List.filter_cons, hkk, hv]

/-! ### Accumulator fold lemmas -/

theorem tool_calls_process (s : StreamState) (e : SSEEvent) :
    (process_event s e).tool_calls =
      match tcOf e with
      | some tc => dictUpsert s.tool_calls tc.toolCallId tc
      | Option.none => s.tool_calls := by
  cases e <;> rfl

theorem slookup_fold_process (evs : List SSEEvent) :
    ∀ (s : StreamState) (id : String),
      slookup (evs.foldl process_event s).tool_calls id =
        match lastTC evs id with
        | some e => some e
        | Option.none => slookup s.tool_calls id := by
  induction evs with
  | nil => intro s id; simp [lastTC]
  | cons e rest ih =>
    intro s id
    rw [List.foldl_cons, ih]
    show _ = (match lastTC (e :: rest) id with
              | some x => some x
              | Option.none => slookup s.tool_calls id)
    rw [show lastTC (e :: rest) id =
          (match lastTC rest id with
           | some x => some x
           | Option.none =>
             match tcOf e with
             | some tc => if tc.toolCallId = id then some tc else Option.none
             | Option.none => Option.none) from rfl]
    cases hlast : lastTC rest id with
    | some x => simp
    | none =>
      simp only
      rw [tool_calls_process]
      cases htc : tcOf e with
      | some tc =>
        simp only [slookup_dictUpsert]
        by_cases hid : tc.toolCallId = id <;> simp [hid]
      | none => simp

theorem nodup_fold_process (evs : List SSEEvent) :
    ∀ s : StreamState, (dictKeys s.tool_calls).Nodup →
      (dictKeys ((evs.foldl process_event s).tool_calls)).Nodup := by
  induction evs with
  | nil => intro s h; exact h
  | cons e rest ih =>
    intro s h
    rw [List.foldl_cons]
    refine ih _ ?_
    rw [tool_calls_process]
    cases tcOf e with
    | some tc => exact nodup_dictKeys_upsert _ _ _ h
    | none => exact h

theorem text_fold_process (evs : List SSEEvent) :
    ∀ s : StreamState,
      (evs.foldl process_event s).accumulated_text =
        s.accumulated_text ++ evs.filterMap fragOf := by
  induction evs with
  | nil => intro s; simp
  | cons e rest ih =>
    intro s
    rw [List.foldl_cons, ih]
    cases e <;> simp [process_event, fragOf]

theorem prompt_process (s : StreamState) (e : SSEEvent) :
    (process_event s e).prompt_tokens = s.prompt_tokens + promptContrib e := by
  cases e <;> simp [process_event, promptContrib]

theorem completion_process (s : StreamState) (e : SSEEvent) :
    (process_event s e).completion_tokens = s.completion_tokens + completionContrib e := by
  cases e <;> simp [process_event, completionContrib]

theorem prompt_fold_process (evs : List SSEEvent) :
    ∀ s : StreamState,
      (evs.foldl process_event s).prompt_tokens =
        s.prompt_tokens + (evs.map promptContrib).sum := by
  induction evs with
  | nil => intro s; simp
  | cons e rest ih =>
    intro s
    rw [List.foldl_cons, ih, prompt_process, List.map_cons, List.sum_cons,
        Nat.add_assoc]

theorem completion_fold_process (evs : List SSEEvent) :
    ∀ s : StreamState,
      (evs.foldl process_event s).completion_tokens =
        s.completion_tokens + (evs.map completionContrib).sum := by
  induction evs with
  | nil => intro s; simp
  | cons e rest ih =>
    intro s
    rw [List.foldl_cons, ih, completion_process, List.map_cons, List.sum_cons,
        Nat.add_assoc]

theorem slookup_foldProcess (evs : List SSEEvent) (id : String) :
    slookup (foldProcess evs).tool_calls id = lastTC evs id := by
  rw [foldProcess, slookup_fold_process]
  cases h : lastTC evs id <;> simp [initState, slookup]

theorem nodup_foldProcess (evs : List SSEEvent) :
    (dictKeys (foldProcess evs).tool_calls).Nodup := by
  rw [foldProcess]
  exact nodup_fold_process evs initState (by simp [initState, dictKeys])

/-- C1: the accumulator's per-tool-call-id map is last-write-wins (the
entry for an id is exactly the most recently processed `ToolCall` event
with that id), and the pending tool calls are exactly the ids whose most
recent `ToolCall` event has phase `"input-available"`; in particular
`started` then `input-available` with nothing further leaves the id
pending, and a subsequent `output-available` removes it. -/
theorem c1_pending_tracker :
    (∀ (evs : List SSEEvent) (id : String),
        slookup (foldProcess evs).tool_calls id = lastTC evs id)
    ∧ (∀ (evs : List SSEEvent) (id : String),
        id ∈ pending_ids (foldProcess evs) ↔
          ∃ e, lastTC evs id = some e ∧ e.state = "input-available")
    ∧ "t1" ∈ pending_ids (foldProcess
        [.toolCall ⟨"t1", Option.none, "started", PyVal.none, PyVal.none, Option.none⟩,
         .toolCall ⟨"t1", Option.none, "input-available", PyVal.none, PyVal.none, Option.none⟩])
    ∧ "t1" ∉ pending_ids (foldProcess
        [.toolCall ⟨"t1", Option.none, "started", PyVal.none, PyVal.none, Option.none⟩,
         .toolCall ⟨"t1", Option.none, "input-available", PyVal.none, PyVal.none, Option.none⟩,
         .toolCall ⟨"t1", Option.none, "output-available", PyVal.none, PyVal.none, Option.none⟩]) := by
  refine ⟨slookup_foldProcess, ?_, by decide, by decide⟩
  intro evs id
  rw [show pending_ids (foldProcess evs) =
        (pendingEntries (foldProcess evs).tool_calls).map (·.1) from rfl,
      mem_pending_iff _ _ (nodup_foldProcess evs)]
  simp only [slookup_foldProcess]

/-- C2 counterexample: for the concrete sequence
`output-available` then `input-available` on the same id, the id IS in
the pending set at the end — the claim says it is not. -/
theorem c2_out_of_order_cex :
    "t1" ∈ pending_ids (foldProcess
      [.toolCall ⟨"t1", Option.none, "output-available", PyVal.none, PyVal.none, Option.none⟩,
       .toolCall ⟨"t1", Option.none, "input-available", PyVal.none, PyVal.none, Option.none⟩]) := by
  decide

/-- C2 (amended): the tracker trusts arrival order as phase order, so an
`input-available` record arriving after `output-available` for the same
id overwrites the entry and the id is back in the pending set at the end
of the sequence. -/
theorem c2_overwrite_pending (s : StreamState) (e1 e2 : ToolCallEvent)
    (_h1 : e1.state = "output-available")
    (h2 : e2.state = "input-available")
    (h3 : e2.toolCallId = e1.toolCallId) :
    e1.toolCallId ∈
      pending_ids ([SSEEvent.toolCall e1, SSEEvent.toolCall e2].foldl process_event s) := by
  have hm : ([SSEEvent.toolCall e1, SSEEvent.toolCall e2].foldl process_event s).tool_calls
      = dictUpsert (dictUpsert s.tool_calls e1.toolCallId e1) e2.toolCallId e2 := rfl
  rw [show pending_ids ([SSEEvent.toolCall e1, SSEEvent.toolCall e2].foldl process_event s)
        = (pendingEntries ([SSEEvent.toolCall e1,
            SSEEvent.toolCall e2].foldl process_event s).tool_calls).map (·.1) from rfl,
      hm, h3]
  exact mem_pending_upsert _ _ _ h2

/-- Witness for C2 (amended) at a concrete state and concrete events. -/
theorem c2_overwrite_pending_w :
    "t9" ∈ pending_ids
      ([SSEEvent.toolCall ⟨"t9", Option.none, "output-available", PyVal.none, PyVal.none, Option.none⟩,
        SSEEvent.toolCall ⟨"t9", Option.none, "input-available", PyVal.none, PyVal.none, Option.none⟩
       ].foldl process_event initState) :=
  c2_overwrite_pending initState
    ⟨"t9", Option.none, "output-available", PyVal.none, PyVal.none, Option.none⟩
    ⟨"t9", Option.none, "input-available", PyVal.none, PyVal.none, Option.none⟩
    rfl rfl rfl

/-- C7: the accumulated text is the concatenation, in delivery order, of
the fragments of all `Text` events, each exactly once; a local-dialect
`text` record contributes its `text` field and a production-dialect
`text-delta` record contributes its `delta` field. -/
theorem c7_text_concat :
    (∀ evs : List SSEEvent,
        (foldProcess evs).text = String.join (evs.filterMap fragOf))
    ∧ (∀ s : String,
        parse_sse_event (PyVal.dict [("type", PyVal.str "text"), ("text", PyVal.str s)]) =
          .ok (.text ⟨s, Option.none⟩))
    ∧ (∀ s : String,
        parse_sse_event (PyVal.dict [("type", PyVal.str "text-delta"), ("delta", PyVal.str s)]) =
          .ok (.text ⟨s, Option.none⟩)) := by
  refine ⟨?_, fun s => rfl, fun s => rfl⟩
  intro evs
  rw [show (foldProcess evs).text = String.join (foldProcess evs).accumulated_text from rfl,
      foldProcess, text_fold_process]
  simp [initState]

/-- C8: usage totals are strictly additive over every `Usage` event and
every `Finish` event with an embedded usage record, no event type ever
decrements either counter, and the spec's concrete scenario — two Usage
events of 10,5 and 3,2 then a Finish embedding 1,1 — yields 14 and 8. -/
theorem c8_usage_additive :
    (∀ evs : List SSEEvent,
        (foldProcess evs).prompt_tokens = (evs.map promptContrib).sum
        ∧ (foldProcess evs).completion_tokens = (evs.map completionContrib).sum)
    ∧ (∀ (s : StreamState) (e : SSEEvent),
        s.prompt_tokens ≤ (process_event s e).prompt_tokens
        ∧ s.completion_tokens ≤ (process_event s e).completion_tokens)
    ∧ ((foldProcess [.usage ⟨10, 5⟩, .usage ⟨3, 2⟩,
          .finish ⟨some "stop", some ⟨1, 1⟩⟩]).prompt_tokens = 14
        ∧ (foldProcess [.usage ⟨10, 5⟩, .usage ⟨3, 2⟩,
          .finish ⟨some "stop", some ⟨1, 1⟩⟩]).completion_tokens = 8) := by
  refine ⟨fun evs => ⟨?_, ?_⟩, fun s e => ⟨?_, ?_⟩, by decide⟩
  · rw [foldProcess, prompt_fold_process]; simp [initState]
  · rw [foldProcess, completion_fold_process]; simp [initState]
  · rw [prompt_process]; exact Nat.le_add_right _ _
  · rw [completion_process]; exact Nat.le_add_right _ _

/-- C9 counterexample: after a `Finish` event the state has
`finished = true`, yet processing a further `Text` event changes the
accumulated text — the state is not immutable once finished. -/
theorem c9_not_frozen_cex :
    (process_event initState (.finish ⟨some "stop", Option.none⟩)).finished = true
    ∧ (process_event (process_event initState (.finish ⟨some "stop", Option.none⟩))
        (.text ⟨"x", Option.none⟩)).accumulated_text
      ≠ (process_event initState (.finish ⟨some "stop", Option.none⟩)).accumulated_text := by
  exact ⟨rfl, by decide⟩

/-- C9 (amended): `finished` does not freeze the accumulator — the
update rules of `process_event` are applied identically whether or not
the state is finished — and only `reset` restores the initial state. -/
theorem c9_process_ignores_finished :
    (∀ (s : StreamState) (e : SSEEvent),
        process_event { s with finished := true } e =
          { process_event s e with finished := true })
    ∧ (∀ s : StreamState, resetState s = initState) := by
  refine ⟨fun s e => ?_, fun s => rfl⟩
  cases e <;> rfl

theorem runLines_append (pre rest : List String) (evs : List SSEEvent)
    (h : runLines pre = (evs, Option.none)) :
    runLines (pre ++ rest) = (evs ++ (runLines rest).1, (runLines rest).2) := by
  induction pre generalizing evs with
  | nil =>
    simp only [runLines, Prod.mk.injEq] at h
    obtain ⟨rfl, -⟩ := h
    simp
  | cons l pre ih =>
    rw [List.cons_append]
    cases hl : processLine l with
    | skip =>
      simp only [runLines, hl] at h ⊢
      exact ih evs h
    | yieldEvent ev =>
      rcases hpre : runLines pre with ⟨evs', a'⟩
      simp only [runLines, hl, hpre, Prod.mk.injEq] at h
      obtain ⟨rfl, rfl⟩ := h
      simp only [runLines, hl, ih evs' hpre, List.cons_append]
    | abortKai k => simp [runLines, hl] at h
    | abortPy e => simp [runLines, hl] at h

/-- C3 counterexample: for the malformed line `data: {not-json}` the
stream aborts with a `KaiStreamError` whose message and cause carry the
decode error's description and position but NOT the offending fragment —
the fragment `{not-json}` appears in neither field, contradicting the
claim that the error carries the offending fragment. -/
theorem c3_fragment_cex :
    (parse_sse_stream ["data: {not-json}"] Terminal.eof).2 =
      some (StreamAbort.kai ⟨"KaiStreamError",
        "Failed to parse SSE event: Expecting property name enclosed in double quotes: line 1 column 2 (char 1)",
        "Expecting property name enclosed in double quotes: line 1 column 2 (char 1)"⟩)
    ∧ containsFrag "{not-json}"
        "Failed to parse SSE event: Expecting property name enclosed in double quotes: line 1 column 2 (char 1)" = false
    ∧ containsFrag "{not-json}"
        "Expecting property name enclosed in double quotes: line 1 column 2 (char 1)" = false := by
  exact ⟨rfl, by decide, by decide⟩

/-- C3 (amended): a `data:` line whose payload fails JSON decoding makes
the sequence raise `KaiStreamError` carrying the underlying decode
error's description (not the raw fragment itself); the error propagates
to the caller, only the events before the malformed line are yielded,
and nothing after it (`post` is arbitrary and unread) is yielded. -/
theorem c3_parse_error_aborts (pre : List String) (line : String) (post : List String)
    (t : Terminal) (evs : List SSEEvent) (k : KaiStreamError)
    (hpre : runLines pre = (evs, Option.none))
    (hline : processLine line = .abortKai k) :
    parse_sse_stream (pre ++ line :: post) t = (evs, some (.kai k)) := by
  have hmid : runLines (line :: post) = ([], some (.kai k)) := by
    simp [runLines, hline]
  have happ := runLines_append pre (line :: post) evs hpre
  rw [hmid] at happ
  simp only [List.append_nil] at happ
  simp [parse_sse_stream, happ]

/-- Witness for C3 (amended): the spec's own scenario, `data: {not-json}`. -/
theorem c3_parse_error_aborts_w :
    parse_sse_stream ["data: {not-json}"] Terminal.eof =
      ([], some (StreamAbort.kai ⟨"KaiStreamError",
        "Failed to parse SSE event: Expecting property name enclosed in double quotes: line 1 column 2 (char 1)",
        "Expecting property name enclosed in double quotes: line 1 column 2 (char 1)"⟩)) :=
  c3_parse_error_aborts [] "data: {not-json}" [] Terminal.eof []
    ⟨"KaiStreamError",
     "Failed to parse SSE event: Expecting property name enclosed in double quotes: line 1 column 2 (char 1)",
     "Expecting property name enclosed in double quotes: line 1 column 2 (char 1)"⟩
    rfl rfl

/-- C4 counterexample: the exception raised for a malformed-JSON line
and the exception raised for a mid-stream transport protocol error are
instances of the SAME Python class, `KaiStreamError` — the claim that
the transport error's type is distinct from the parse-error type is
false. -/
theorem c4_same_class_cex :
    abortClass (parse_sse_stream ["data: {not-json}"] Terminal.eof).2 = some "KaiStreamError"
    ∧ abortClass (parse_sse_stream [] (Terminal.remoteProtocolError "connection lost")).2 =
        some "KaiStreamError" :=
  ⟨rfl, rfl⟩

/-- C4 (amended): a transport-level stream closure between records ends
the sequence normally with no error (as does plain end of stream), while
a mid-stream transport protocol error is surfaced as a raised
`KaiStreamError` with message `"Connection error during streaming"` —
the same exception class as parse errors, distinguished only by its
message and cause. -/
theorem c4_termination (lines : List String) (evs : List SSEEvent) (m : String)
    (h : runLines lines = (evs, Option.none)) :
    parse_sse_stream lines Terminal.streamClosed = (evs, Option.none)
    ∧ parse_sse_stream lines Terminal.eof = (evs, Option.none)
    ∧ parse_sse_stream lines (Terminal.remoteProtocolError m) =
        (evs, some (StreamAbort.kai
          ⟨"KaiStreamError", "Connection error during streaming", m⟩)) := by
  refine ⟨?_, ?_, ?_⟩ <;> simp [parse_sse_stream, h]

/-- Witness for C4 (amended) on a concrete uneventful line sequence. -/
theorem c4_termination_w :
    parse_sse_stream ["", ": ping", "event: x"] Terminal.streamClosed = ([], Option.none)
    ∧ parse_sse_stream ["", ": ping", "event: x"] (Terminal.remoteProtocolError "boom") =
        ([], some (StreamAbort.kai
          ⟨"KaiStreamError", "Connection error during streaming", "boom"⟩)) :=
  ⟨(c4_termination ["", ": ping", "event: x"] [] "boom" rfl).1,
   (c4_termination ["", ": ping", "event: x"] [] "boom" rfl).2.2⟩

/-! ### Totality of the normalizer on structurally well-formed records -/

theorem asStr_of_ok (v : PyVal) (h : okStr v = true) : ∃ s, asStr v = .ok s := by
  cases v <;> first | exact ⟨_, rfl⟩ | simp [okStr] at h

theorem asOptStr_of_ok (v : PyVal) (h : okOptStr v = true) : ∃ o, asOptStr v = .ok o := by
  cases v <;> first | exact ⟨_, rfl⟩ | simp [okOptStr] at h

theorem asOptBool_of_ok (v : PyVal) (h : okOptBool v = true) : ∃ o, asOptBool v = .ok o := by
  cases v <;> first | exact ⟨_, rfl⟩ | simp [okOptBool] at h

theorem asNat_of_ok (v : PyVal) (h : okNat v = true) : ∃ n, asNat v = .ok n := by
  cases v with
  | int n =>
    simp only [okNat, decide_eq_true_eq] at h
    exact ⟨n.toNat, by simp [asNat, h]⟩
  | none => simp [okNat] at h
  | bool b => simp [okNat] at h
  | floatLit l => simp [okNat] at h
  | str s => simp [okNat] at h
  | list xs => simp [okNat] at h
  | dict kvs => simp [okNat] at h

theorem parse_approval_of_ok (kvs : List (String × PyVal)) (h : approvalOk kvs = true) :
    ∃ a, parse_approval kvs = .ok a := by
  cases hv : pyGet kvs "approval" PyVal.none <;>
      simp only [parse_approval, approvalOk, hv] at h ⊢ <;>
      try exact ⟨Option.none, rfl⟩
  next akvs =>
    cases hid : slookup akvs "id" with
    | none => simp only [hid]; exact ⟨Option.none, rfl⟩
    | some idv =>
      simp only [hid] at h ⊢
      rw [Bool.and_eq_true, Bool.and_eq_true] at h
      obtain ⟨⟨ha, hb⟩, hc⟩ := h
      obtain ⟨i, hi⟩ := asStr_of_ok _ ha
      obtain ⟨ab, hab⟩ := asOptBool_of_ok _ hb
      obtain ⟨ar, har⟩ := asOptStr_of_ok _ hc
      exact ⟨some ⟨i, ab, ar⟩, by simp [hi, hab, har]⟩

theorem finishUsagePart_of_ok (kvs : List (String × PyVal)) (h : usageFieldOk kvs = true) :
    ∃ u, finishUsagePart kvs = .ok u := by
  cases htr : pyTruthy (pyGet kvs "usage" PyVal.none)
  · exact ⟨Option.none, by simp [finishUsagePart, htr]⟩
  · cases hu : pyGet kvs "usage" PyVal.none with
    | dict ukvs =>
      rw [hu] at htr
      simp only [usageFieldOk, hu, htr, if_true] at h
      rw [Bool.and_eq_true] at h
      obtain ⟨pt, hpt⟩ := asNat_of_ok _ h.1
      obtain ⟨ct, hct⟩ := asNat_of_ok _ h.2
      exact ⟨some ⟨pt, ct⟩, by simp [finishUsagePart, hu, htr, hpt, hct]⟩
    | none => rw [hu] at htr; simp [pyTruthy] at htr
    | bool b => rw [hu] at htr; simp only [usageFieldOk, hu, htr, if_true] at h; simp at h
    | int n => rw [hu] at htr; simp only [usageFieldOk, hu, htr, if_true] at h; simp at h
    | floatLit l => rw [hu] at htr; simp only [usageFieldOk, hu, htr, if_true] at h; simp at h
    | str s => rw [hu] at htr; simp only [usageFieldOk, hu, htr, if_true] at h; simp at h
    | list xs => rw [hu] at htr; simp only [usageFieldOk, hu, htr, if_true] at h; simp at h

theorem parse_text_event_ok (kvs : List (String × PyVal))
    (h1 : okStr (pyGet kvs "text" (PyVal.str "")) = true)
    (h2 : okOptStr (pyGet kvs "state" PyVal.none) = true) :
    exOk (parse_text_event kvs) = true := by
  obtain ⟨t, ht⟩ := asStr_of_ok _ h1
  obtain ⟨st, hst⟩ := asOptStr_of_ok _ h2
  simp [parse_text_event, ht, hst, exOk]

theorem parse_text_delta_event_ok (kvs : List (String × PyVal))
    (h1 : okStr (pyGet kvs "delta" (PyVal.str "")) = true)
    (h2 : okOptStr (pyGet kvs "state" PyVal.none) = true) :
    exOk (parse_text_delta_event kvs) = true := by
  obtain ⟨t, ht⟩ := asStr_of_ok _ h1
  obtain ⟨st, hst⟩ := asOptStr_of_ok _ h2
  simp [parse_text_delta_event, ht, hst, exOk]

theorem parse_tool_call_event_ok (kvs : List (String × PyVal))
    (h1 : okStr (pyGet kvs "toolCallId" (PyVal.str "")) = true)
    (h2 : okOptStr (pyGet kvs "toolName" PyVal.none) = true)
    (h3 : okStr (pyGet kvs "state" (PyVal.str "")) = true)
    (h4 : approvalOk kvs = true) :
    exOk (parse_tool_call_event kvs) = true := by
  obtain ⟨i, hi⟩ := asStr_of_ok _ h1
  obtain ⟨n, hn⟩ := asOptStr_of_ok _ h2
  obtain ⟨st, hst⟩ := asStr_of_ok _ h3
  obtain ⟨ap, hap⟩ := parse_approval_of_ok kvs h4
  simp [parse_tool_call_event, hi, hn, hst, hap, exOk]

theorem parse_tool_input_start_event_ok (kvs : List (String × PyVal))
    (h1 : okStr (pyGet kvs "toolCallId" (PyVal.str "")) = true)
    (h2 : okOptStr (pyGet kvs "toolName" PyVal.none) = true) :
    exOk (parse_tool_input_start_event kvs) = true := by
  obtain ⟨i, hi⟩ := asStr_of_ok _ h1
  obtain ⟨n, hn⟩ := asOptStr_of_ok _ h2
  simp [parse_tool_input_start_event, hi, hn, exOk]

theorem parse_tool_input_available_event_ok (kvs : List (String × PyVal))
    (h1 : okStr (pyGet kvs "toolCallId" (PyVal.str "")) = true)
    (h2 : okOptStr (pyGet kvs "toolName" PyVal.none) = true)
    (h3 : approvalOk kvs = true) :
    exOk (parse_tool_input_available_event kvs) = true := by
  obtain ⟨i, hi⟩ := asStr_of_ok _ h1
  obtain ⟨n, hn⟩ := asOptStr_of_ok _ h2
  obtain ⟨ap, hap⟩ := parse_approval_of_ok kvs h3
  simp [parse_tool_input_available_event, hi, hn, hap, exOk]

theorem parse_tool_output_available_event_ok (kvs : List (String × PyVal))
    (h1 : okStr (pyGet kvs "toolCallId" (PyVal.str "")) = true)
    (h2 : okOptStr (pyGet kvs "toolName" PyVal.none) = true) :
    exOk (parse_tool_output_available_event kvs) = true := by
  obtain ⟨i, hi⟩ := asStr_of_ok _ h1
  obtain ⟨n, hn⟩ := asOptStr_of_ok _ h2
  simp [parse_tool_output_available_event, hi, hn, exOk]

theorem parse_tool_output_error_event_ok (kvs : List (String × PyVal))
    (h1 : okStr (pyGet kvs "toolCallId" (PyVal.str "")) = true)
    (h2 : okStr (pyGet kvs "errorText" (PyVal.str "Unknown error")) = true) :
    exOk (parse_tool_output_error_event kvs) = true := by
  obtain ⟨i, hi⟩ := asStr_of_ok _ h1
  obtain ⟨t, ht⟩ := asStr_of_ok _ h2
  simp [parse_tool_output_error_event, hi, ht, exOk]

theorem parse_tool_approval_request_event_ok (kvs : List (String × PyVal))
    (h1 : okStr (pyGet kvs "approvalId" (PyVal.str "")) = true)
    (h2 : okStr (pyGet kvs "toolCallId" (PyVal.str "")) = true) :
    exOk (parse_tool_approval_request_event kvs) = true := by
  obtain ⟨a, ha⟩ := asStr_of_ok _ h1
  obtain ⟨t, ht⟩ := asStr_of_ok _ h2
  simp [parse_tool_approval_request_event, ha, ht, exOk]

theorem parse_usage_event_ok (kvs : List (String × PyVal))
    (h : dataUsageOk kvs = true) :
    exOk (parse_usage_event kvs) = true := by
  cases hv : pyGet kvs "data" (PyVal.dict []) with
  | dict ukvs =>
    simp only [dataUsageOk, hv] at h
    rw [Bool.and_eq_true] at h
    obtain ⟨pt, hpt⟩ := asNat_of_ok _ h.1
    obtain ⟨ct, hct⟩ := asNat_of_ok _ h.2
    simp [parse_usage_event, hv, hpt, hct, exOk]
  | none => simp [dataUsageOk, hv] at h
  | bool b => simp [dataUsageOk, hv] at h
  | int n => simp [dataUsageOk, hv] at h
  | floatLit l => simp [dataUsageOk, hv] at h
  | str s => simp [dataUsageOk, hv] at h
  | list xs => simp [dataUsageOk, hv] at h

theorem parse_finish_event_ok (kvs : List (String × PyVal))
    (h1 : okOptStr (pyGet kvs "finishReason" (PyVal.str "stop")) = true)
    (h2 : usageFieldOk kvs = true) :
    exOk (parse_finish_event kvs) = true := by
  obtain ⟨fr, hfr⟩ := asOptStr_of_ok _ h1
  obtain ⟨u, hu⟩ := finishUsagePart_of_ok kvs h2
  simp [parse_finish_event, hfr, hu, exOk]

theorem parse_error_event_ok (kvs : List (String × PyVal))
    (h : okStr (pyGet kvs "message" (PyVal.str "Unknown error")) = true) :
    exOk (parse_error_event kvs) = true := by
  obtain ⟨m, hm⟩ := asStr_of_ok _ h
  simp [parse_error_event, hm, exOk]

/-- C5 counterexample: `"data-usage"` has an entry in the dispatch
table, yet the record whose `data` field is JSON `null` makes
normalization raise an `AttributeError` (`None.get` in
`_parse_usage_event`) instead of returning an event — so normalization
on supported types is not raise-free. -/
theorem c5_attribute_error_cex :
    supportedType "data-usage" = true
    ∧ parse_sse_event (PyVal.dict [("type", PyVal.str "data-usage"), ("data", PyVal.none)]) =
        .error (.attributeError "NoneType object has no attribute get") :=
  ⟨rfl, rfl⟩

/-- C5 (amended): for a record whose `type` string has no table entry,
normalization always returns `Unknown` carrying the original type string
and the original record unchanged, never failing; for a record whose
`type` has a table entry, normalization returns an event without raising
provided the record is structurally well-formed (`wfRecord`: every field
read has the shape the event model expects — in particular the `data`
field of a `data-usage` record, when present, is a mapping). -/
theorem c5_normalization :
    (∀ (kvs : List (String × PyVal)) (t : String),
        pyGet kvs "type" (PyVal.str "") = PyVal.str t →
        supportedType t = false →
        parse_sse_event (PyVal.dict kvs) = .ok (.unknown (PyVal.str t) (PyVal.dict kvs)))
    ∧ (∀ kvs : List (String × PyVal),
        wfRecord kvs = true → exOk (parse_sse_event (PyVal.dict kvs)) = true) := by
  constructor
  · intro kvs t hty hsup
    rw [supportedType] at hsup
    cases hs : slookup EVENT_PARSERS t with
    | some p => rw [hs] at hsup; simp at hsup
    | none => simp [parse_sse_event, hty, hs]
  · intro kvs h
    cases hty : pyGet kvs "type" (PyVal.str "") with
    | str t =>
      simp only [wfRecord, hty] at h
      simp only [parse_sse_event, hty]
      by_cases h01 : t = "text"
      · subst h01
        simp only [EVENT_PARSERS, slookup]
        simp at h ⊢
        exact parse_text_event_ok kvs h.1 h.2
      by_cases h02 : t = "text-delta"
      · subst h02
        simp only [EVENT_PARSERS, slookup]
        simp at h ⊢
        exact parse_text_delta_event_ok kvs h.1 h.2
      by_cases h03 : t = "step-start"
      · subst h03
        simp only [EVENT_PARSERS, slookup]
        simp
        exact rfl
      by_cases h04 : t = "start-step"
      · subst h04
        simp only [EVENT_PARSERS, slookup]
        simp
        exact rfl
      by_cases h05 : t = "tool-call"
      · subst h05
        simp only [EVENT_PARSERS, slookup]
        simp at h ⊢
        obtain ⟨⟨⟨hA, hB⟩, hC⟩, hD⟩ := h
        exact parse_tool_call_event_ok kvs hA hB hC hD
      by_cases h06 : t = "tool-input-start"
      · subst h06
        simp only [EVENT_PARSERS, slookup]
        simp at h ⊢
        exact parse_tool_input_start_event_ok kvs h.1 h.2
      by_cases h07 : t = "tool-input-available"
      · subst h07
        simp only [EVENT_PARSERS, slookup]
        simp at h ⊢
        obtain ⟨⟨hA, hB⟩, hC⟩ := h
        exact parse_tool_input_available_event_ok kvs hA hB hC
      by_cases h08 : t = "tool-output-available"
      · subst h08
        simp only [EVENT_PARSERS, slookup]
        simp at h ⊢
        exact parse_tool_output_available_event_ok kvs h.1 h.2
      by_cases h09 : t = "tool-output-error"
      · subst h09
        simp only [EVENT_PARSERS, slookup]
        simp at h ⊢
        exact parse_tool_output_error_event_ok kvs h.1 h.2
      by_cases h10 : t = "tool-approval-request"
      · subst h10
        simp only [EVENT_PARSERS, slookup]
        simp at h ⊢
        exact parse_tool_approval_request_event_ok kvs h.1 h.2
      by_cases h11 : t = "data-usage"
      · subst h11
        simp only [EVENT_PARSERS, slookup]
        simp at h ⊢
        exact parse_usage_event_ok kvs h
      by_cases h12 : t = "finish"
      · subst h12
        simp only [EVENT_PARSERS, slookup]
        simp at h ⊢
        exact parse_finish_event_ok kvs h.1 h.2
      by_cases h13 : t = "finish-step"
      · subst h13
        simp only [EVENT_PARSERS, slookup]
        simp at h ⊢
        exact parse_finish_event_ok kvs h.1 h.2
      by_cases h14 : t = "error"
      · subst h14
        simp only [EVENT_PARSERS, slookup]
        simp at h ⊢
        exact parse_error_event_ok kvs h
      · have hs : slookup EVENT_PARSERS t = Option.none := by
          simp [EVENT_PARSERS, slookup, Ne.symm h01, Ne.symm h02, Ne.symm h03, Ne.symm h04,
                Ne.symm h05, Ne.symm h06, Ne.symm h07, Ne.symm h08, Ne.symm h09, Ne.symm h10,
                Ne.symm h11, Ne.symm h12, Ne.symm h13, Ne.symm h14]
        simp [hs, exOk]
    | none => simp [parse_sse_event, hty, exOk]
    | bool b => simp [parse_sse_event, hty, exOk]
    | int n => simp [parse_sse_event, hty, exOk]
    | floatLit l => simp [parse_sse_event, hty, exOk]
    | list xs => simp [wfRecord, hty] at h
    | dict d => simp [wfRecord, hty] at h

/-- Witness for C5 (amended): an unsupported type degrades to `Unknown`
with the payload unchanged, and a well-formed supported record
normalizes without raising. -/
theorem c5_normalization_w :
    parse_sse_event (PyVal.dict [("type", PyVal.str "mystery")]) =
      .ok (.unknown (PyVal.str "mystery") (PyVal.dict [("type", PyVal.str "mystery")]))
    ∧ exOk (parse_sse_event
        (PyVal.dict [("type", PyVal.str "text"), ("text", PyVal.str "hi")])) = true :=
  ⟨c5_normalization.1 [("type", PyVal.str "mystery")] "mystery" rfl rfl,
   c5_normalization.2 [("type", PyVal.str "text"), ("text", PyVal.str "hi")] rfl⟩

/-- C6 counterexample: an approval mapping whose `id` is the empty
string still produces an attached approval sub-record (with empty id) —
the claim says the event's approval field should be absent in that case. -/
theorem c6_empty_id_cex :
    parse_sse_event (PyVal.dict
      [("type", PyVal.str "tool-call"), ("toolCallId", PyVal.str "t1"),
       ("state", PyVal.str "input-available"),
       ("approval", PyVal.dict [("id", PyVal.str "")])]) =
    .ok (.toolCall ⟨"t1", Option.none, "input-available", PyVal.none, PyVal.none,
        some ⟨"", Option.none, Option.none⟩⟩) :=
  rfl

/-- C6 (amended): the approval sub-record is parsed as absent exactly
when the `approval` field is not a mapping containing an `"id"` key (a
mapping with the key is automatically truthy); emptiness of the id
string is not checked.  Whenever an approval is attached, that source
condition held. -/
theorem c6_approval_presence :
    (∀ kvs : List (String × PyVal),
        parse_approval kvs = .ok Option.none ↔ approvalConds kvs = false)
    ∧ (∀ (kvs : List (String × PyVal)) (a : ToolApproval),
        parse_approval kvs = .ok (some a) → approvalConds kvs = true) := by
  constructor
  · intro kvs
    cases hv : pyGet kvs "approval" PyVal.none <;>
        (simp only [parse_approval, approvalConds, hv]; try simp)
    next akvs =>
      cases hid : slookup akvs "id" with
      | none => simp [hid]
      | some idv =>
        simp only [hid, Option.isSome_some]
        cases ha : asStr idv <;>
          cases hb : asOptBool (pyGet akvs "approved" PyVal.none) <;>
          cases hc : asOptStr (pyGet akvs "reason" PyVal.none) <;>
          simp [ha, hb, hc]
  · intro kvs a h
    cases hv : pyGet kvs "approval" PyVal.none <;>
        simp only [parse_approval, approvalConds, hv] at h ⊢ <;> try simp at h
    next akvs =>
      cases hid : slookup akvs "id" with
      | none => rw [hid] at h; simp at h
      | some idv => simp [hid]

/-- Witness for C6 (amended): a concrete record where an approval is
attached and the source condition is confirmed to hold. -/
theorem c6_approval_presence_w :
    approvalConds [("approval", PyVal.dict [("id", PyVal.str "x")])] = true :=
  c6_approval_presence.2 [("approval", PyVal.dict [("id", PyVal.str "x")])]
    ⟨"x", Option.none, Option.none⟩ rfl

/-- C10: a `finish` or `finish-step` record lacking a `finishReason`
key normalizes to a `Finish` event whose reason is the string `"stop"`
(rather than absent), so after the accumulator processes it the
state's `finish_reason` is `some "stop"`. -/
theorem c10_missing_finish_reason (kvs : List (String × PyVal))
    (h1 : slookup kvs "finishReason" = Option.none)
    (h2 : pyGet kvs "type" (PyVal.str "") = PyVal.str "finish" ∨
          pyGet kvs "type" (PyVal.str "") = PyVal.str "finish-step")
    (h3 : usageFieldOk kvs = true) :
    ∃ u, parse_sse_event (PyVal.dict kvs) = .ok (.finish ⟨some "stop", u⟩)
      ∧ ∀ s : StreamState,
          (process_event s (.finish ⟨some "stop", u⟩)).finish_reason = some "stop" := by
  obtain ⟨u, hu⟩ := finishUsagePart_of_ok kvs h3
  have hfr : pyGet kvs "finishReason" (PyVal.str "stop") = PyVal.str "stop" := by
    simp [pyGet, h1]
  have hparse : parse_finish_event kvs = .ok (.finish ⟨some "stop", u⟩) := by
    simp [parse_finish_event, hfr, hu, asOptStr]
  refine ⟨u, ?_, fun s => rfl⟩
  rcases h2 with hty | hty <;>
    simp [parse_sse_event, hty, EVENT_PARSERS, slookup, hparse]

/-- Witness for C10: the bare record with only a type field. -/
theorem c10_missing_finish_reason_w :
    parse_sse_event (PyVal.dict [("type", PyVal.str "finish")]) =
      .ok (.finish ⟨some "stop", Option.none⟩)
    ∧ (process_event initState (.finish ⟨some "stop", Option.none⟩)).finish_reason =
        some "stop" := by
  obtain ⟨u, hu, hs⟩ :=
    c10_missing_finish_reason [("type", PyVal.str "finish")] rfl (Or.inl rfl) rfl
  have hconc : parse_sse_event (PyVal.dict [("type", PyVal.str "finish")]) =
      .ok (.finish ⟨some "stop", Option.none⟩) := rfl
  have := hu.symm.trans hconc
  simp only [Except.ok.injEq, SSEEvent.finish.injEq, FinishEvent.mk.injEq, true_and] at this
  subst this
  exact ⟨hconc, hs initState⟩
